import Mathlib

/-!
Verification of the JWT signing/verification core of the repository
(`cc/jwt/internal/...`): the keyset wrapper (`jwt_mac_wrapper.cc`), and —
modelled from the specification where only tests of the component are in the
repository — the per-key primitives, the compact codec, the validator and the
HMAC key manager.
-/

namespace Tink

/-- Error codes of `util::Status` used by the JWT core
(`util::error::...` in the source). -/
inductive ErrorCode where
  | ok
  | invalidArgument
  | unauthenticated
  | internalError
  | unimplemented
  deriving DecidableEq, Repr

/-- The type `util::Status`: an error code together with a human-readable message. -/
structure Status where
  code : ErrorCode
  message : String
  deriving DecidableEq, Repr

/-- The type `util::StatusOr<T>` / fallible results. -/
abbrev StatusOr (α : Type) := Except Status α

/-- A JSON value, as stored in a token's custom claims.  Numbers are modelled
as rationals (the JSON grammar's decimal numerals). -/
inductive JsonValue where
  | null
  | bool (b : Bool)
  | num (q : ℚ)
  | str (s : String)
  | arr (l : List JsonValue)
  | obj (l : List (String × JsonValue))

/-- A point in time (`absl::Time`), seconds since the Unix epoch plus a
sub-second part in nanoseconds. -/
structure UnixTime where
  seconds : Int
  nanos : Nat
  deriving DecidableEq, Repr

/-- Modelled from the spec: the raw (unsigned) JWT claim set built by
`RawJwtBuilder` (`raw_jwt.h` is not in the repository):
`typ`/`iss`/`sub`/`jti` optional strings, the ordered audience list, the three
optional timestamps, and the free-form custom claims. -/
structure RawJwt where
  type_header : Option String
  issuer : Option String
  subject : Option String
  audiences : List String
  jwt_id : Option String
  not_before : Option UnixTime
  issued_at : Option UnixTime
  expiration : Option UnixTime
  custom_claims : List (String × JsonValue)

/-- The registered claim names, which custom claims must avoid. -/
def registeredClaimNames : List String :=
  ["iss", "sub", "jti", "aud", "exp", "nbf", "iat"]

/-- Modelled from the spec: the state of a `RawJwtBuilder` — the claim fields
plus the `WithoutExpiration` mark. -/
structure RawJwtBuilder where
  jwt : RawJwt
  without_expiration : Bool

/-- Modelled from the spec: `RawJwtBuilder::Build`.  Either `expiration` is
set or the builder is marked `without_expiration`; mixing is an error.
Custom claim names must not collide with registered names. -/
def RawJwtBuilder.build (b : RawJwtBuilder) : StatusOr RawJwt :=
  if b.jwt.expiration.isSome && b.without_expiration then
    .error ⟨.invalidArgument, "expiration set with without_expiration"⟩
  else if b.jwt.expiration.isNone && !b.without_expiration then
    .error ⟨.invalidArgument, "neither expiration nor without_expiration"⟩
  else if b.jwt.custom_claims.any (fun c => registeredClaimNames.contains c.1) then
    .error ⟨.invalidArgument, "custom claim collides with registered name"⟩
  else
    .ok b.jwt

/-- Modelled from the spec: the decoded JWT payload as it travels on the wire
(`encode_payload`): registered claims with timestamps as whole seconds,
plus the custom claims. -/
structure Payload where
  issuer : Option String
  subject : Option String
  audiences : List String
  jwt_id : Option String
  nbf : Option Int
  iat : Option Int
  exp : Option Int
  custom : List (String × JsonValue)

/-- Modelled from the spec: payload serialization of a claim set; timestamps
keep only their whole-second part (sub-second precision truncated). -/
def encodePayload (r : RawJwt) : Payload where
  issuer := r.issuer
  subject := r.subject
  audiences := r.audiences
  jwt_id := r.jwt_id
  nbf := r.not_before.map (·.seconds)
  iat := r.issued_at.map (·.seconds)
  exp := r.expiration.map (·.seconds)
  custom := r.custom_claims

/-- Modelled from the spec: the JOSE header `{typ?, alg, kid?}`. -/
structure Header where
  typ : Option String
  alg : String
  kid : Option String
  deriving DecidableEq, Repr

/-- Modelled from the spec: a compact JWT after base64url/JSON decoding:
header, payload, and the raw MAC/signature bytes. -/
structure Token where
  header : Header
  payload : Payload
  sig : List Nat

/-- A verified JWT has the same shape as a raw one (spec §3: "Same shape"),
with the type header taken from the JOSE header. -/
abbrev VerifiedJwt := RawJwt

/-- Modelled from the spec: decoding a verified token back into claim form;
wire timestamps carry only whole seconds, so the nanos are 0. -/
def decodeToken (h : Header) (p : Payload) : VerifiedJwt where
  type_header := h.typ
  issuer := p.issuer
  subject := p.subject
  audiences := p.audiences
  jwt_id := p.jwt_id
  not_before := p.nbf.map (fun s => ⟨s, 0⟩)
  issued_at := p.iat.map (fun s => ⟨s, 0⟩)
  expiration := p.exp.map (fun s => ⟨s, 0⟩)
  custom_claims := p.custom

/-- The round-trip image of a claim set: every timestamp truncated to whole
seconds (nanos become 0). -/
def truncateRaw (r : RawJwt) : RawJwt :=
  { r with
    not_before := r.not_before.map (fun t => ⟨t.seconds, 0⟩)
    issued_at := r.issued_at.map (fun t => ⟨t.seconds, 0⟩)
    expiration := r.expiration.map (fun t => ⟨t.seconds, 0⟩) }

/-- Modelled from the spec: the `JwtValidator` policy object (§3):
expected header/claim values, the missing-expiration allowance, an optional
fixed clock and the clock skew in seconds. -/
structure JwtValidator where
  expected_type_header : Option String
  expected_issuer : Option String
  expected_subject : Option String
  expected_audience : Option String
  allow_missing_expiration : Bool
  fixed_now : Option Int
  clock_skew : Int
  deriving DecidableEq, Repr

/-- The clock the validator uses: `fixed_now` if set, else the wall clock. -/
def JwtValidator.effectiveNow (v : JwtValidator) (wallNow : Int) : Int :=
  v.fixed_now.getD wallNow

/-- Modelled from the spec: §4.4 step 1 — if `expected_type_header` is set the
header `typ` must be present and equal; if unset, `typ` must be absent or equal
to `"JWT"`. -/
def JwtValidator.typOk (v : JwtValidator) (typ : Option String) : Bool :=
  match v.expected_type_header with
  | some t => typ == some t
  | none => typ == none || typ == some "JWT"

/-- Modelled from the spec: applying the validator (§4.4) to the decoded
claims, checks in order: type header, issuer, subject, audience, then the
temporal checks with skew `k` against `now` (`fixed_now` if set, else the
wall clock). -/
def JwtValidator.validate (v : JwtValidator) (wallNow : Int) (typ : Option String)
    (p : Payload) : StatusOr Unit :=
  if !(v.typOk typ) then
    .error ⟨.invalidArgument, "invalid typ header"⟩
  else if !(match v.expected_issuer with
            | some i => p.issuer == some i
            | none => true) then
    .error ⟨.invalidArgument, "wrong issuer"⟩
  else if !(match v.expected_subject with
            | some s => p.subject == some s
            | none => true) then
    .error ⟨.invalidArgument, "wrong subject"⟩
  else if !(match v.expected_audience with
            | some a => p.audiences.contains a
            | none => p.audiences.isEmpty) then
    .error ⟨.invalidArgument, "audience mismatch"⟩
  else
    let now := v.effectiveNow wallNow
    let k := v.clock_skew
    let expOk : StatusOr Unit :=
      match p.exp with
      | some e => if now < e + k then .ok () else .error ⟨.invalidArgument, "expired"⟩
      | none =>
        if v.allow_missing_expiration then .ok ()
        else .error ⟨.invalidArgument, "no expiration"⟩
    match expOk with
    | .error st => .error st
    | .ok () =>
      match p.nbf with
      | some n =>
        if now + k ≥ n then .ok ()
        else .error ⟨.invalidArgument, "token cannot yet be used"⟩
      | none => .ok ()

/-- The URL-safe base64 alphabet, in value order. -/
def b64Chars : List Char :=
  "ABCDEFGHIJKLMNOPQRSTUVWXYZabcdefghijklmnopqrstuvwxyz0123456789-_".toList

/-- The character encoding a 6-bit group. -/
def b64Char (n : Nat) : Char := b64Chars.getD n 'A'

/-- The 6-bit value of an alphabet character; `none` off the alphabet. -/
def b64Value (ch : Char) : Option Nat := b64Chars.findIdx? (· == ch)

/-- Modelled from the spec: unpadded URL-safe base64 encoding of a byte
sequence (3 bytes to 4 characters; a 1- or 2-byte remainder to 2 or 3). -/
def base64urlEncode : List Nat → List Char
  | [] => []
  | [b0] => [b64Char (b0 / 4), b64Char (b0 % 4 * 16)]
  | [b0, b1] =>
    [b64Char (b0 / 4), b64Char (b0 % 4 * 16 + b1 / 16), b64Char (b1 % 16 * 4)]
  | b0 :: b1 :: b2 :: rest =>
    b64Char (b0 / 4) :: b64Char (b0 % 4 * 16 + b1 / 16) ::
      b64Char (b1 % 16 * 4 + b2 / 64) :: b64Char (b2 % 64) :: base64urlEncode rest

/-- Modelled from the spec: unpadded URL-safe base64 decoding; rejects any
non-alphabet character and any length `≡ 1 (mod 4)`. -/
def base64urlDecode : List Char → Option (List Nat)
  | [] => some []
  | [_] => none
  | [a, b] => do
    let va ← b64Value a
    let vb ← b64Value b
    some [va * 4 + vb / 16]
  | [a, b, c] => do
    let va ← b64Value a
    let vb ← b64Value b
    let vc ← b64Value c
    some [va * 4 + vb / 16, vb % 16 * 16 + vc / 4]
  | a :: b :: c :: d :: rest => do
    let va ← b64Value a
    let vb ← b64Value b
    let vc ← b64Value c
    let vd ← b64Value d
    let tail ← base64urlDecode rest
    some ((va * 4 + vb / 16) :: (vb % 16 * 16 + vc / 4) :: (vc % 4 * 64 + vd) :: tail)

/-- The 4-byte big-endian encoding of a 32-bit key id. -/
def bigEndian4 (key_id : Nat) : List Nat :=
  [key_id / 2 ^ 24 % 256, key_id / 2 ^ 16 % 256, key_id / 2 ^ 8 % 256, key_id % 256]

/-- Modelled from the spec: `kid_from_key_id` of the compact codec (§4.1,
`jwt_format` is not in the repository): big-endian 4-byte encoding of the key
id followed by unpadded base64url. -/
def kidFromKeyId (key_id : Nat) : String :=
  ⟨base64urlEncode (bigEndian4 key_id)⟩

/-- Modelled from the spec: `get_key_id` — the inverse of `kidFromKeyId`;
absent when the string does not decode to exactly 4 bytes. -/
def getKeyId (kid : String) : Option Nat :=
  match base64urlDecode kid.toList with
  | some [b0, b1, b2, b3] => some (((b0 * 256 + b1) * 256 + b2) * 256 + b3)
  | _ => none

/-- The enum `google::crypto::tink::OutputPrefixType`. -/
inductive OutputPrefixType where
  | UNKNOWN_PREFIX
  | TINK
  | LEGACY
  | RAW
  | CRUNCHY
  deriving DecidableEq, Repr

/-- The enum `google::crypto::tink::KeyStatusType` (the statuses the keyset layer
hands to the primitive set). -/
inductive KeyStatus where
  | ENABLED
  | DISABLED
  deriving DecidableEq, Repr

/-- Modelled from the spec: `GetKid` of `jwt_format` — the entry-derived kid
passed to the per-key sign operation: for a TINK-prefix entry the kid derived
from the key id, otherwise absent. -/
def GetKid (key_id : Nat) (prefix_type : OutputPrefixType) : Option String :=
  match prefix_type with
  | .TINK => some (kidFromKeyId key_id)
  | _ => none

/-- The twelve supported JWS algorithms. -/
inductive Algorithm where
  | HS256 | HS384 | HS512
  | ES256 | ES384 | ES512
  | RS256 | RS384 | RS512
  | PS256 | PS384 | PS512
  deriving DecidableEq, Repr

/-- The canonical `alg` header value of an algorithm. -/
def Algorithm.name : Algorithm → String
  | .HS256 => "HS256"
  | .HS384 => "HS384"
  | .HS512 => "HS512"
  | .ES256 => "ES256"
  | .ES384 => "ES384"
  | .ES512 => "ES512"
  | .RS256 => "RS256"
  | .RS384 => "RS384"
  | .RS512 => "RS512"
  | .PS256 => "PS256"
  | .PS384 => "PS384"
  | .PS512 => "PS512"

/-- Key material, as raw bytes. -/
abbrev KeyBytes := List Nat

/-- The underlying MAC / signature engine: a deterministic byte-in/byte-out
function of the key and the signed content.  The spec treats the concrete
cryptography as an external collaborator, so it is a parameter of the model. -/
abbrev MacFn := KeyBytes → Header → Payload → List Nat

/-- Modelled from the spec: the signing side `sign_and_encode_with_kid`
(§4.2) of a per-key primitive — MAC and signature variants share this
contract: derive the effective kid (failing when both `custom_kid` and the
`kid` argument are set), compose the header, and sign the content. -/
def signAndEncodeWithKid (mac : MacFn) (alg : Algorithm) (key : KeyBytes)
    (custom_kid : Option String) (raw : RawJwt) (kid : Option String) :
    StatusOr Token :=
  if custom_kid.isSome && kid.isSome then
    .error ⟨.invalidArgument, "custom_kid and kid set"⟩
  else
    let effective_kid := if custom_kid.isSome then custom_kid else kid
    let header : Header := ⟨raw.type_header, alg.name, effective_kid⟩
    let payload := encodePayload raw
    .ok ⟨header, payload, mac key header payload⟩

/-- Modelled from the spec: the kid policy enforced on verify (§4.2): a
`custom_kid` key accepts an absent header kid or one equal to `custom_kid`;
a TINK-output entry (`tink_kid` set) requires the header kid to equal the
entry's key-id-encoded kid; a RAW entry without `custom_kid` ignores it. -/
def kidPolicyOk (custom_kid tink_kid header_kid : Option String) : Bool :=
  (match custom_kid, header_kid with
   | some ck, some hk => hk == ck
   | some _, none => true
   | none, _ => true) &&
  (match tink_kid with
   | some tk => header_kid == some tk
   | none => true)

/-- Modelled from the spec: the verifying side `verify_and_decode` (§4.2) of
a per-key primitive, after the compact form has been decoded into a token:
reject a foreign `alg`; reject a `typ` the validator does not accept; a MAC /
signature mismatch is UNAUTHENTICATED; then apply the validator and the kid
policy. -/
def verifyAndDecodeToken (mac : MacFn) (alg : Algorithm) (key : KeyBytes)
    (custom_kid : Option String) (tink_kid : Option String)
    (wallNow : Int) (tok : Token) (v : JwtValidator) : StatusOr VerifiedJwt :=
  if tok.header.alg ≠ alg.name then
    .error ⟨.invalidArgument, "invalid alg"⟩
  else if !(v.typOk tok.header.typ) then
    .error ⟨.invalidArgument, "invalid typ header"⟩
  else if tok.sig ≠ mac key tok.header tok.payload then
    .error ⟨.unauthenticated, "verification failed"⟩
  else
    match v.validate wallNow tok.header.typ tok.payload with
    | .error st => .error st
    | .ok () =>
      if kidPolicyOk custom_kid tink_kid tok.header.kid then
        .ok (decodeToken tok.header tok.payload)
      else
        .error ⟨.invalidArgument, "invalid kid"⟩

/-- The interface `JwtMacInternal`: the interface of a per-key JWT MAC primitive, as the
wrapper consumes it.  The wrapper treats the compact form `C` and verified
form `V` opaquely, so both are type parameters. -/
structure JwtMacInternal (C V : Type) where
  computeMacAndEncodeWithKid : RawJwt → Option String → StatusOr C
  verifyMacAndDecode : C → JwtValidator → StatusOr V

/-- An entry of `PrimitiveSet<JwtMacInternal>`: the per-key primitive plus the
keyset metadata the wrapper reads. -/
structure Entry (C V : Type) where
  primitive : JwtMacInternal C V
  key_id : Nat
  status : KeyStatus
  output_prefix_type : OutputPrefixType

/-- The set `PrimitiveSet<JwtMacInternal>`: the entries in set order (`get_all`), and
the primary designated by position (`get_primary`; `none` models the null
pointer, and an empty set necessarily has no primary). -/
structure PrimitiveSet (C V : Type) where
  entries : List (Entry C V)
  primary_index : Option Nat

/-- The accessor `PrimitiveSet::get_primary`. -/
def PrimitiveSet.getPrimary {C V : Type} (s : PrimitiveSet C V) : Option (Entry C V) :=
  s.primary_index.bind fun i => s.entries[i]?

namespace JwtMacWrapper

/-- The function `Validate` of `jwt_mac_wrapper.cc`: a null set is INTERNAL; a set without
a primary is INVALID_ARGUMENT; an entry whose output prefix type is neither
RAW nor TINK is INVALID_ARGUMENT. -/
def Validate {C V : Type} (jwt_mac_set : Option (PrimitiveSet C V)) : StatusOr Unit :=
  match jwt_mac_set with
  | none => .error ⟨.internalError, "jwt_mac_set must be non-NULL"⟩
  | some s =>
    if s.getPrimary.isNone then
      .error ⟨.invalidArgument, "jwt_mac_set has no primary"⟩
    else if s.entries.all fun e =>
        e.output_prefix_type == .RAW || e.output_prefix_type == .TINK then
      .ok ()
    else
      .error ⟨.invalidArgument, "all JWT keys must be either RAW or TINK"⟩

/-- The factory `JwtMacWrapper::Wrap`: validate the set, then hand it to the set wrapper
(the returned `JwtMac` is the wrapped set). -/
def Wrap {C V : Type} (jwt_mac_set : Option (PrimitiveSet C V)) :
    StatusOr (PrimitiveSet C V) :=
  match Validate jwt_mac_set with
  | .error status => .error status
  | .ok () =>
    match jwt_mac_set with
    | some s => .ok s
    | none => .error ⟨.internalError, "jwt_mac_set must be non-NULL"⟩

end JwtMacWrapper

namespace JwtMacSetWrapper

/-- The method `JwtMacSetWrapper::ComputeMacAndEncode`: delegate to the primary entry's
per-key sign operation, passing `GetKid(primary.key_id, primary.prefix)`.
The source dereferences the primary unconditionally (`Wrap` has validated the
set); the impossible missing-primary case is INTERNAL here. -/
def ComputeMacAndEncode {C V : Type} (s : PrimitiveSet C V) (token : RawJwt) :
    StatusOr C :=
  match s.getPrimary with
  | none => .error ⟨.internalError, "no primary"⟩
  | some primary =>
    primary.primitive.computeMacAndEncodeWithKid token
      (GetKid primary.key_id primary.output_prefix_type)

/-- The trial-verification loop of `JwtMacSetWrapper::VerifyMacAndDecode`:
each entry is attempted; the first success returns; a non-UNAUTHENTICATED
failure replaces the remembered `interesting_status`; when the entries are
exhausted the remembered status, else INVALID_ARGUMENT, is returned. -/
def verifyLoop {C V : Type} (entries : List (Entry C V)) (compact : C)
    (validator : JwtValidator) (interesting_status : Option Status) : StatusOr V :=
  match entries with
  | [] =>
    match interesting_status with
    | some st => .error st
    | none => .error ⟨.invalidArgument, "verification failed"⟩
  | mac_entry :: rest =>
    match mac_entry.primitive.verifyMacAndDecode compact validator with
    | .ok verified_jwt => .ok verified_jwt
    | .error st =>
      if st.code ≠ .unauthenticated then
        verifyLoop rest compact validator (some st)
      else
        verifyLoop rest compact validator interesting_status

/-- The method `JwtMacSetWrapper::VerifyMacAndDecode`: run the trial loop over all
entries in set order with no status remembered yet. -/
def VerifyMacAndDecode {C V : Type} (s : PrimitiveSet C V) (compact : C)
    (validator : JwtValidator) : StatusOr V :=
  verifyLoop s.entries compact validator none

end JwtMacSetWrapper

/-- The enum `google::crypto::tink::JwtHmacAlgorithm`. -/
inductive JwtHmacAlgorithm where
  | HS_UNKNOWN
  | HS256
  | HS384
  | HS512
  deriving DecidableEq, Repr

/-- The digest size, in bytes, of an HMAC algorithm's hash. -/
def JwtHmacAlgorithm.digestSize : JwtHmacAlgorithm → Nat
  | .HS_UNKNOWN => 0
  | .HS256 => 32
  | .HS384 => 48
  | .HS512 => 64

/-- The proto `google::crypto::tink::JwtHmacKeyFormat` (version implicit 0). -/
structure JwtHmacKeyFormat where
  algorithm : JwtHmacAlgorithm
  key_size : Nat
  deriving DecidableEq, Repr

/-- The proto `google::crypto::tink::JwtHmacKey`. -/
structure JwtHmacKey where
  version : Nat
  algorithm : JwtHmacAlgorithm
  key_value : KeyBytes
  deriving DecidableEq, Repr

namespace JwtHmacKeyManager

/-- Modelled from the spec: the minimum HMAC key size enforced by
`JwtHmacKeyManager` (`jwt_hmac_key_manager.cc` is not in the repository).
Per spec P7 and the key-manager tests (`ValidateKeyFormatHS384/HS512` accept
`key_size = 32`), the floor is 32 bytes for every HS* algorithm. -/
def minKeySize : Nat := 32

/-- Modelled from the spec: `JwtHmacKeyManager::ValidateKeyFormat` — the
algorithm must be a known variant and `key_size` must meet the floor. -/
def ValidateKeyFormat (f : JwtHmacKeyFormat) : StatusOr Unit :=
  if f.algorithm == .HS_UNKNOWN then
    .error ⟨.invalidArgument, "invalid algorithm"⟩
  else if f.key_size < minKeySize then
    .error ⟨.invalidArgument, "key too short"⟩
  else
    .ok ()

/-- Modelled from the spec: `JwtHmacKeyManager::ValidateKey` — version 0, a
known algorithm, and key material meeting the floor. -/
def ValidateKey (k : JwtHmacKey) : StatusOr Unit :=
  if k.version ≠ 0 then
    .error ⟨.invalidArgument, "invalid version"⟩
  else if k.algorithm == .HS_UNKNOWN then
    .error ⟨.invalidArgument, "invalid algorithm"⟩
  else if k.key_value.length < minKeySize then
    .error ⟨.invalidArgument, "key too short"⟩
  else
    .ok ()

end JwtHmacKeyManager

/-- Membership in the URL-safe base64 alphabet. -/
def isB64UrlChar (ch : Char) : Bool := b64Chars.contains ch

/-- Splitting a character sequence at every dot (the `.`-separated segments,
in order; empty segments preserved). -/
def splitSegments : List Char → List (List Char)
  | [] => [[]]
  | c :: rest =>
    let segs := splitSegments rest
    if c = '.' then
      [] :: segs
    else
      match segs with
      | [] => [[c]]
      | s0 :: srest => (c :: s0) :: srest

/-- Modelled from the spec: `split_compact` (§4.1): exactly three non-empty
dot-separated segments, every character drawn from the base64url alphabet
(decoding rejects `=`, newline, space, `?`, ...). -/
def splitCompact (s : String) : Option (List Char × List Char × List Char) :=
  match splitSegments s.toList with
  | [h, p, sg] =>
    if !h.isEmpty && !p.isEmpty && !sg.isEmpty &&
        (h ++ p ++ sg).all isB64UrlChar then
      some (h, p, sg)
    else
      none
  | _ => none

/-- Modelled from the spec: the framing half of `verify_and_decode` (§4.2):
malformed framing is INVALID_ARGUMENT before any decoding or cryptography
runs.  The base64url/JSON decoding of the three segments and the per-key
verification of the decoded token are parameters. -/
def verifyCompact {V : Type}
    (decodeSegments : List Char × List Char × List Char → StatusOr Token)
    (verifyTok : Token → StatusOr V) (compact : String) : StatusOr V :=
  match splitCompact compact with
  | none => .error ⟨.invalidArgument, "invalid token"⟩
  | some segs =>
    match decodeSegments segs with
    | .error st => .error st
    | .ok tok => verifyTok tok

/-- The position of the first element satisfying a predicate. -/
def firstIdx? {α : Type} (p : α → Bool) : List α → Option Nat
  | [] => none
  | a :: l => if p a then some 0 else (firstIdx? p l).map (· + 1)

/-- An entry of a keyset as `KeysetManager` maintains it: key id, key
material, status and output prefix type. -/
structure KeysetEntry where
  key_id : Nat
  key : KeyBytes
  status : KeyStatus
  output_prefix_type : OutputPrefixType
  deriving DecidableEq, Repr

/-- A keyset: entries in creation order plus the primary key id. -/
structure Keyset where
  entries : List KeysetEntry
  primary_key_id : Nat
  deriving DecidableEq, Repr

/-- Modelled from the spec: the per-key `JwtMacInternal` primitive built for
a keyset entry (the HMAC MAC variant, no `custom_kid`): sign with the entry's
key; verify with the entry's key, enforcing the TINK-derived kid when the
entry's prefix is TINK. -/
def KeysetEntry.primitive (mac : MacFn) (alg : Algorithm) (wallNow : Int)
    (e : KeysetEntry) : JwtMacInternal Token VerifiedJwt where
  computeMacAndEncodeWithKid := signAndEncodeWithKid mac alg e.key none
  verifyMacAndDecode :=
    verifyAndDecodeToken mac alg e.key none
      (GetKid e.key_id e.output_prefix_type) wallNow

/-- The primitive-set entry for a keyset entry. -/
def KeysetEntry.toEntry (mac : MacFn) (alg : Algorithm) (wallNow : Int)
    (e : KeysetEntry) : Entry Token VerifiedJwt where
  primitive := e.primitive mac alg wallNow
  key_id := e.key_id
  status := e.status
  output_prefix_type := e.output_prefix_type

/-- Modelled from the spec: the primitive set a keyset handle presents to the
wrapper: one entry per ENABLED key, in keyset order, the primary designated
by `primary_key_id`. -/
def Keyset.toPrimitiveSet (mac : MacFn) (alg : Algorithm) (wallNow : Int)
    (ks : Keyset) : PrimitiveSet Token VerifiedJwt :=
  let entries := (ks.entries.filter fun e => e.status == .ENABLED).map
    (KeysetEntry.toEntry mac alg wallNow)
  { entries := entries
    primary_index := firstIdx? (fun e => e.key_id == ks.primary_key_id) entries }

/-- The ENABLED entry a keyset designates as primary, if any. -/
def Keyset.primaryEntry (ks : Keyset) : Option KeysetEntry :=
  (ks.entries.filter fun e => e.status == .ENABLED).find?
    fun e => e.key_id == ks.primary_key_id

/-- The interesting part of a per-entry verification result: its status when
it is a failure other than UNAUTHENTICATED. -/
def interestingOf {V : Type} : StatusOr V → Option Status
  | .ok _ => none
  | .error st => if st.code ≠ .unauthenticated then some st else none

/-- The last non-UNAUTHENTICATED failure among a list of per-entry results. -/
def lastInteresting {V : Type} (rs : List (StatusOr V)) : Option Status :=
  (rs.filterMap interestingOf).getLast?

/-- The trial-verification contract over the list of per-entry results in set
order: the first success; otherwise the last remembered interesting status;
otherwise INVALID_ARGUMENT "verification failed". -/
def loopSpec {V : Type} (rs : List (StatusOr V)) : StatusOr V :=
  match rs.find? Except.isOk with
  | some r => r
  | none =>
    .error ((lastInteresting rs).getD ⟨.invalidArgument, "verification failed"⟩)

/-- A concrete MAC engine for scenarios and witnesses: tags the content with
the key, so distinct keys never produce colliding tags. -/
def macKeyTag : MacFn := fun key _ _ => key

/-- The first HS256 key of the rotation scenario, 32 bytes. -/
def rotKey1 : KeyBytes := List.replicate 32 1

/-- The second HS256 key of the rotation scenario, 32 bytes. -/
def rotKey2 : KeyBytes := List.replicate 32 2

/-- The claim set of the rotation scenario: issuer only, no expiration. -/
def rotRawJwt : RawJwt := ⟨none, some "issuer", none, [], none, none, none, none, []⟩

/-- The validator of the rotation scenario: expect issuer "issuer", allow a
missing expiration. -/
def rotValidator : JwtValidator := ⟨none, some "issuer", none, none, true, none, 0⟩

/-- Rotation scenario, snapshot 1: K1 only, primary K1. -/
def rotKeyset1 (p : OutputPrefixType) : Keyset :=
  ⟨[⟨1, rotKey1, .ENABLED, p⟩], 1⟩

/-- Rotation scenario, snapshot 2: K1 and K2, primary K1. -/
def rotKeyset2 (p : OutputPrefixType) : Keyset :=
  ⟨[⟨1, rotKey1, .ENABLED, p⟩, ⟨2, rotKey2, .ENABLED, p⟩], 1⟩

/-- Rotation scenario, snapshot 3: K1 and K2, primary K2. -/
def rotKeyset3 (p : OutputPrefixType) : Keyset :=
  ⟨[⟨1, rotKey1, .ENABLED, p⟩, ⟨2, rotKey2, .ENABLED, p⟩], 2⟩

/-- Rotation scenario, snapshot 4: K1 disabled, primary K2. -/
def rotKeyset4 (p : OutputPrefixType) : Keyset :=
  ⟨[⟨1, rotKey1, .DISABLED, p⟩, ⟨2, rotKey2, .ENABLED, p⟩], 2⟩

/-- A `JwtMacInternal Nat Nat` with constant behaviour, for witnesses. -/
def constPrimitive (computeRes verifyRes : StatusOr Nat) : JwtMacInternal Nat Nat :=
  ⟨fun _ _ => computeRes, fun _ _ => verifyRes⟩

/-- A RAW ENABLED primitive-set entry around a primitive, for witnesses. -/
def testEntry (p : JwtMacInternal Nat Nat) : Entry Nat Nat := ⟨p, 0, .ENABLED, .RAW⟩

/-- A validator with no expectations that allows a missing expiration. -/
def trivialValidator : JwtValidator := ⟨none, none, none, none, true, none, 0⟩

/-- The non-temporal checks of the validator (§4.4 steps 1-4), as one
boolean: type header, issuer, subject and audience all acceptable. -/
def preChecksOk (v : JwtValidator) (typ : Option String) (p : Payload) : Bool :=
  v.typOk typ &&
  (match v.expected_issuer with
   | some i => p.issuer == some i
   | none => true) &&
  (match v.expected_subject with
   | some s => p.subject == some s
   | none => true) &&
  (match v.expected_audience with
   | some a => p.audiences.contains a
   | none => p.audiences.isEmpty)

/-! ## Supporting lemmas -/

lemma isOk_ok {V : Type} (a : V) : (Except.ok a : StatusOr V).isOk = true := rfl

lemma isOk_error {V : Type} (st : Status) :
    (Except.error st : StatusOr V).isOk = false := rfl

lemma verifyLoop_eq {C V : Type} (c : C) (v : JwtValidator) :
    ∀ (entries : List (Entry C V)) (int : Option Status),
    JwtMacSetWrapper.verifyLoop entries c v int =
      match (entries.map fun e => e.primitive.verifyMacAndDecode c v).find?
          Except.isOk with
      | some r => r
      | none =>
        .error (((lastInteresting
            (entries.map fun e => e.primitive.verifyMacAndDecode c v)).or
          int).getD ⟨.invalidArgument, "verification failed"⟩) := by
  intro entries
  induction entries with
  | nil =>
    intro int
    cases int <;> rfl
  | cons e rest ih =>
    intro int
    cases hres : e.primitive.verifyMacAndDecode c v with
    | ok val =>
      simp only [JwtMacSetWrapper.verifyLoop, hres, List.map_cons,
        List.find?_cons, isOk_ok]
    | error st =>
      by_cases hcode : st.code = ErrorCode.unauthenticated
      · have hne : ¬ st.code ≠ ErrorCode.unauthenticated := by simp [hcode]
        simp only [JwtMacSetWrapper.verifyLoop, hres, if_neg hne, List.map_cons,
          List.find?_cons, isOk_error, ih, lastInteresting, List.filterMap_cons]
        have hint : interestingOf (Except.error st : StatusOr V) = none := by
          simp [interestingOf, hcode]
        rw [hint]
      · simp only [JwtMacSetWrapper.verifyLoop, hres, if_pos hcode,
          List.map_cons, List.find?_cons, isOk_error, ih, lastInteresting,
          List.filterMap_cons]
        have hint : interestingOf (Except.error st : StatusOr V) = some st := by
          simp [interestingOf, hcode]
        rw [hint]
        cases hfind : (rest.map fun e =>
            e.primitive.verifyMacAndDecode c v).find? Except.isOk with
        | some r => simp only []
        | none =>
          simp only []
          rw [List.getLast?_cons]
          cases hlast : ((rest.map fun e =>
              e.primitive.verifyMacAndDecode c v).filterMap
                interestingOf).getLast? with
          | some st2 => simp [Option.or]
          | none => simp [Option.or]

lemma VerifyMacAndDecode_eq_loopSpec {C V : Type} (s : PrimitiveSet C V)
    (c : C) (v : JwtValidator) :
    JwtMacSetWrapper.VerifyMacAndDecode s c v =
      loopSpec (s.entries.map fun e => e.primitive.verifyMacAndDecode c v) := by
  rw [JwtMacSetWrapper.VerifyMacAndDecode, verifyLoop_eq, loopSpec]
  cases (s.entries.map fun e => e.primitive.verifyMacAndDecode c v).find?
      Except.isOk with
  | some r => rfl
  | none =>
    simp only []
    cases lastInteresting (s.entries.map fun e =>
      e.primitive.verifyMacAndDecode c v) <;> rfl

lemma VerifyMacAndDecode_isOk_iff {C V : Type} (s : PrimitiveSet C V)
    (c : C) (v : JwtValidator) :
    (JwtMacSetWrapper.VerifyMacAndDecode s c v).isOk = true ↔
      ∃ e ∈ s.entries, (e.primitive.verifyMacAndDecode c v).isOk = true := by
  rw [VerifyMacAndDecode_eq_loopSpec, loopSpec]
  cases hfind : (s.entries.map fun e =>
      e.primitive.verifyMacAndDecode c v).find? Except.isOk with
  | some r =>
    simp only []
    constructor
    · intro _
      have hmem := List.mem_of_find?_eq_some hfind
      have hok := List.find?_some hfind
      rcases List.mem_map.mp hmem with ⟨e, he, hfe⟩
      exact ⟨e, he, by rw [hfe]; exact hok⟩
    · intro _
      exact List.find?_some hfind
  | none =>
    simp only [isOk_error]
    constructor
    · intro h
      exact absurd h (by simp)
    · rintro ⟨e, he, hok⟩
      have := (List.find?_eq_none.mp hfind) _
        (List.mem_map.mpr ⟨e, he, rfl⟩)
      exact absurd hok this

lemma firstIdx?_bind_getElem {α : Type} (p : α → Bool) :
    ∀ (l : List α), (firstIdx? p l).bind (fun i => l[i]?) = l.find? p := by
  intro l
  induction l with
  | nil => rfl
  | cons a l ih =>
    by_cases h : p a
    · simp [firstIdx?, h, List.find?_cons]
    · simp only [firstIdx?, if_neg h, List.find?_cons]
      rw [Option.bind_map]
      have : ((fun i => (a :: l)[i]?) ∘ (· + 1)) = fun i => l[i]? := by
        funext i
        simp
      rw [this, ih]
      cases l.find? p <;> simp [h]

lemma toPrimitiveSet_getPrimary (ks : Keyset) (mac : MacFn) (alg : Algorithm)
    (wallNow : Int) :
    (ks.toPrimitiveSet mac alg wallNow).getPrimary =
      ks.primaryEntry.map (KeysetEntry.toEntry mac alg wallNow) := by
  rw [Keyset.toPrimitiveSet, Keyset.primaryEntry, PrimitiveSet.getPrimary]
  simp only []
  rw [show ∀ (o : Option Nat) (f : Nat → Option (Entry Token VerifiedJwt)),
      o.bind f = o.bind f from fun _ _ => rfl]
  rw [firstIdx?_bind_getElem]
  rw [List.find?_map]
  rfl

lemma validate_ok_typOk (v : JwtValidator) (wallNow : Int) (typ : Option String)
    (p : Payload) (h : v.validate wallNow typ p = .ok ()) : v.typOk typ = true := by
  by_contra hne
  rw [JwtValidator.validate] at h
  rw [Bool.not_eq_true] at hne
  rw [hne] at h
  simp at h

/-! ## Claims about the wrapper's trial verification (C1, C10) -/

/-- C1: the wrapper's `VerifyMacAndDecode` tries every entry of the primitive
set in set order; the first success is returned; an UNAUTHENTICATED failure
is skipped; any other failure is remembered (each overwriting the last); after
all entries the remembered interesting status is returned if one was recorded,
otherwise INVALID_ARGUMENT "verification failed". -/
theorem c1_wrapper_verify_trial (C V : Type) (s : PrimitiveSet C V) (compact : C)
    (validator : JwtValidator) :
    JwtMacSetWrapper.VerifyMacAndDecode s compact validator =
      loopSpec (s.entries.map fun e =>
        e.primitive.verifyMacAndDecode compact validator) :=
  VerifyMacAndDecode_eq_loopSpec s compact validator

/-- C10: with two or more non-UNAUTHENTICATED failures and no success, the
wrapper returns the status of the last such entry in iteration order (each
new interesting failure overwrites the remembered one); and an interesting
failure at an earlier entry never aborts the loop — a later entry's success
is still returned. -/
theorem c10_last_interesting_wins_and_no_abort :
    (∀ (C V : Type) (s : PrimitiveSet C V) (compact : C)
       (validator : JwtValidator) (l1 l2 l3 : List (Entry C V))
       (e1 e2 : Entry C V) (st1 st2 : Status),
       s.entries = l1 ++ e1 :: l2 ++ e2 :: l3 →
       e1.primitive.verifyMacAndDecode compact validator = .error st1 →
       st1.code ≠ .unauthenticated →
       e2.primitive.verifyMacAndDecode compact validator = .error st2 →
       st2.code ≠ .unauthenticated →
       (∀ e ∈ s.entries,
         (e.primitive.verifyMacAndDecode compact validator).isOk = false) →
       (∀ e ∈ l3, ∀ st,
         e.primitive.verifyMacAndDecode compact validator = .error st →
         st.code = .unauthenticated) →
       JwtMacSetWrapper.VerifyMacAndDecode s compact validator = .error st2) ∧
    (∀ (C V : Type) (s : PrimitiveSet C V) (compact : C)
       (validator : JwtValidator) (l1 l3 : List (Entry C V))
       (e1 e2 : Entry C V) (st1 : Status) (val : V),
       s.entries = l1 ++ e2 :: l3 →
       e1 ∈ l1 →
       e1.primitive.verifyMacAndDecode compact validator = .error st1 →
       st1.code ≠ .unauthenticated →
       (∀ e ∈ l1,
         (e.primitive.verifyMacAndDecode compact validator).isOk = false) →
       e2.primitive.verifyMacAndDecode compact validator = .ok val →
       JwtMacSetWrapper.VerifyMacAndDecode s compact validator = .ok val) := by
  constructor
  · intro C V s compact validator l1 l2 l3 e1 e2 st1 st2 hs h1 hc1 h2 hc2 hnook h3
    rw [VerifyMacAndDecode_eq_loopSpec, loopSpec]
    have hfind : (s.entries.map fun e =>
        e.primitive.verifyMacAndDecode compact validator).find? Except.isOk = none := by
      rw [List.find?_eq_none]
      intro x hx
      rcases List.mem_map.mp hx with ⟨e, he, hfe⟩
      rw [← hfe]
      simp [hnook e he]
    rw [hfind]
    simp only []
    have hlast : lastInteresting (s.entries.map fun e =>
        e.primitive.verifyMacAndDecode compact validator) = some st2 := by
      rw [lastInteresting, hs]
      simp only [List.map_append, List.map_cons, List.filterMap_append,
        List.filterMap_cons, h1, h2]
      have hi1 : interestingOf (Except.error st1 : StatusOr V) = some st1 := by
        simp [interestingOf, hc1]
      have hi2 : interestingOf (Except.error st2 : StatusOr V) = some st2 := by
        simp [interestingOf, hc2]
      rw [hi1, hi2]
      have h3nil : ((l3.map fun e =>
          e.primitive.verifyMacAndDecode compact validator).filterMap
            interestingOf) = [] := by
        rw [List.filterMap_eq_nil_iff]
        intro x hx
        rcases List.mem_map.mp hx with ⟨e, he, hfe⟩
        rw [← hfe]
        cases hres : e.primitive.verifyMacAndDecode compact validator with
        | ok a => rfl
        | error st => simp [interestingOf, h3 e he st hres]
      rw [h3nil]
      rw [List.getLast?_append, List.getLast?_cons, List.getLast?_append,
        List.getLast?_cons]
      rfl
    rw [hlast]
    rfl
  · intro C V s compact validator l1 l3 e1 e2 st1 val hs he1 h1 hc1 hl1 h2
    rw [VerifyMacAndDecode_eq_loopSpec, loopSpec]
    have hfind : (s.entries.map fun e =>
        e.primitive.verifyMacAndDecode compact validator).find? Except.isOk =
          some (.ok val) := by
      rw [hs]
      simp only [List.map_append, List.map_cons]
      rw [List.find?_append]
      have hnone : ((l1.map fun e =>
          e.primitive.verifyMacAndDecode compact validator).find?
            Except.isOk) = none := by
        rw [List.find?_eq_none]
        intro x hx
        rcases List.mem_map.mp hx with ⟨e, he, hfe⟩
        rw [← hfe]
        simp [hl1 e he]
      rw [hnone, List.find?_cons, h2]
      rfl
    rw [hfind]

/-- Witness for C10 at concrete two-entry sets of `Nat`-valued dummies. -/
theorem c10_witness :
    JwtMacSetWrapper.VerifyMacAndDecode
      (⟨[testEntry (constPrimitive (.error ⟨.internalError, "x"⟩)
            (.error ⟨.invalidArgument, "first"⟩)),
         testEntry (constPrimitive (.error ⟨.internalError, "x"⟩)
            (.error ⟨.invalidArgument, "second"⟩))], some 0⟩ : PrimitiveSet Nat Nat)
      0 trivialValidator = .error ⟨.invalidArgument, "second"⟩ ∧
    JwtMacSetWrapper.VerifyMacAndDecode
      (⟨[testEntry (constPrimitive (.error ⟨.internalError, "x"⟩)
            (.error ⟨.invalidArgument, "first"⟩)),
         testEntry (constPrimitive (.error ⟨.internalError, "x"⟩) (.ok 7))],
        some 0⟩ : PrimitiveSet Nat Nat)
      0 trivialValidator = .ok 7 := by
  constructor
  · exact c10_last_interesting_wins_and_no_abort.1 Nat Nat _ 0 trivialValidator
      [] [] []
      (testEntry (constPrimitive (.error ⟨.internalError, "x"⟩)
        (.error ⟨.invalidArgument, "first"⟩)))
      (testEntry (constPrimitive (.error ⟨.internalError, "x"⟩)
        (.error ⟨.invalidArgument, "second"⟩)))
      ⟨.invalidArgument, "first"⟩ ⟨.invalidArgument, "second"⟩
      rfl rfl (by decide) rfl (by decide)
      (by
        intro e he
        rcases List.mem_cons.mp he with rfl | he2
        · rfl
        · rcases List.mem_cons.mp he2 with rfl | he3
          · rfl
          · cases he3)
      (fun e he => absurd he (List.not_mem_nil e))
  · exact c10_last_interesting_wins_and_no_abort.2 Nat Nat _ 0 trivialValidator
      [testEntry (constPrimitive (.error ⟨.internalError, "x"⟩)
        (.error ⟨.invalidArgument, "first"⟩))] []
      (testEntry (constPrimitive (.error ⟨.internalError, "x"⟩)
        (.error ⟨.invalidArgument, "first"⟩)))
      (testEntry (constPrimitive (.error ⟨.internalError, "x"⟩) (.ok 7)))
      ⟨.invalidArgument, "first"⟩ 7
      rfl (List.mem_singleton.mpr rfl) rfl (by decide)
      (by
        intro e he
        rcases List.mem_singleton.mp he with rfl
        rfl)
      rfl

/-! ## C6: wrap-time validation -/

/-- C6: `JwtMacWrapper::Wrap` fails with INTERNAL on a null set, with
INVALID_ARGUMENT on a set without a primary (in particular an empty set), and
with INVALID_ARGUMENT when any entry's output prefix type is neither RAW nor
TINK; otherwise it returns the working wrapped set. -/
theorem c6_wrap_validation :
    (∀ (C V : Type), JwtMacWrapper.Wrap (C := C) (V := V) none =
      .error ⟨.internalError, "jwt_mac_set must be non-NULL"⟩) ∧
    (∀ (C V : Type) (s : PrimitiveSet C V), s.getPrimary = none →
      JwtMacWrapper.Wrap (some s) =
        .error ⟨.invalidArgument, "jwt_mac_set has no primary"⟩) ∧
    (∀ (C V : Type) (s : PrimitiveSet C V), s.entries = [] →
      JwtMacWrapper.Wrap (some s) =
        .error ⟨.invalidArgument, "jwt_mac_set has no primary"⟩) ∧
    (∀ (C V : Type) (s : PrimitiveSet C V) (e : Entry C V), e ∈ s.entries →
      e.output_prefix_type ≠ .RAW → e.output_prefix_type ≠ .TINK →
      s.getPrimary ≠ none →
      JwtMacWrapper.Wrap (some s) =
        .error ⟨.invalidArgument, "all JWT keys must be either RAW or TINK"⟩) ∧
    (∀ (C V : Type) (s : PrimitiveSet C V), s.getPrimary ≠ none →
      (∀ e ∈ s.entries,
        e.output_prefix_type = .RAW ∨ e.output_prefix_type = .TINK) →
      JwtMacWrapper.Wrap (some s) = .ok s) := by
  refine ⟨fun C V => rfl, ?_, ?_, ?_, ?_⟩
  · intro C V s h
    simp [JwtMacWrapper.Wrap, JwtMacWrapper.Validate, h]
  · intro C V s h
    have hp : s.getPrimary = none := by
      rw [PrimitiveSet.getPrimary]
      cases s.primary_index with
      | none => rfl
      | some i => simp [h]
    simp [JwtMacWrapper.Wrap, JwtMacWrapper.Validate, hp]
  · intro C V s e he hra hti hp
    have hnone : s.getPrimary.isNone = false := by
      cases hgp : s.getPrimary with
      | none => exact absurd hgp hp
      | some p => rfl
    have hall : (s.entries.all fun e =>
        e.output_prefix_type == .RAW || e.output_prefix_type == .TINK) = false := by
      rw [List.all_eq_false]
      refine ⟨e, he, ?_⟩
      cases h : e.output_prefix_type <;> simp_all
    simp [JwtMacWrapper.Wrap, JwtMacWrapper.Validate, hnone, hall]
  · intro C V s hp hall
    have hnone : s.getPrimary.isNone = false := by
      cases hgp : s.getPrimary with
      | none => exact absurd hgp hp
      | some p => rfl
    have hall2 : (s.entries.all fun e =>
        e.output_prefix_type == .RAW || e.output_prefix_type == .TINK) = true := by
      rw [List.all_eq_true]
      intro e he
      rcases hall e he with h | h <;> simp [h]
    simp [JwtMacWrapper.Wrap, JwtMacWrapper.Validate, hnone, hall2]

/-- Witness for C6 at concrete `Nat`-valued sets: a null set, a set with no
primary, an empty set, a LEGACY entry, and a valid RAW set. -/
theorem c6_witness :
    JwtMacWrapper.Wrap (C := Nat) (V := Nat) none =
      .error ⟨.internalError, "jwt_mac_set must be non-NULL"⟩ ∧
    JwtMacWrapper.Wrap (some (⟨[testEntry (constPrimitive (.ok 0) (.ok 0))],
        none⟩ : PrimitiveSet Nat Nat)) =
      .error ⟨.invalidArgument, "jwt_mac_set has no primary"⟩ ∧
    JwtMacWrapper.Wrap (some (⟨[], some 0⟩ : PrimitiveSet Nat Nat)) =
      .error ⟨.invalidArgument, "jwt_mac_set has no primary"⟩ ∧
    JwtMacWrapper.Wrap (some (⟨[⟨constPrimitive (.ok 0) (.ok 0), 0, .ENABLED,
        .LEGACY⟩], some 0⟩ : PrimitiveSet Nat Nat)) =
      .error ⟨.invalidArgument, "all JWT keys must be either RAW or TINK"⟩ ∧
    JwtMacWrapper.Wrap (some (⟨[testEntry (constPrimitive (.ok 0) (.ok 0))],
        some 0⟩ : PrimitiveSet Nat Nat)) =
      .ok ⟨[testEntry (constPrimitive (.ok 0) (.ok 0))], some 0⟩ := by
  refine ⟨c6_wrap_validation.1 Nat Nat, ?_, ?_, ?_, ?_⟩
  · exact c6_wrap_validation.2.1 Nat Nat _ rfl
  · exact c6_wrap_validation.2.2.1 Nat Nat _ rfl
  · exact c6_wrap_validation.2.2.2.1 Nat Nat _
      ⟨constPrimitive (.ok 0) (.ok 0), 0, .ENABLED, .LEGACY⟩
      (List.mem_singleton.mpr rfl) (by decide) (by decide)
      (by simp [PrimitiveSet.getPrimary])
  · exact c6_wrap_validation.2.2.2.2 Nat Nat _
      (by simp [PrimitiveSet.getPrimary])
      (by
        intro e he
        rcases List.mem_singleton.mp he with rfl
        exact Or.inl rfl)

/-! ## C4: kid derivation and the sign-side delegation -/

lemma b64Value_b64Char (v : Nat) (h : v < 64) : b64Value (b64Char v) = some v := by
  have hfin : ∀ i : Fin 64, b64Value (b64Char i.val) = some i.val := by decide
  exact hfin ⟨v, h⟩

lemma b64Char_ascii (n : Nat) : (b64Char n).toNat < 128 := by
  rcases Nat.lt_or_ge n 64 with h | h
  · have hfin : ∀ i : Fin 64, (b64Char i.val).toNat < 128 := by decide
    exact hfin ⟨n, h⟩
  · have hd : b64Char n = 'A' := by
      rw [b64Char, List.getD_eq_default]
      exact le_trans (by norm_num [b64Chars]) h
    rw [hd]
    decide

lemma base64url_decode_encode_4 (b0 b1 b2 b3 : Nat) (h0 : b0 < 256)
    (h1 : b1 < 256) (h2 : b2 < 256) (h3 : b3 < 256) :
    base64urlDecode (base64urlEncode [b0, b1, b2, b3]) = some [b0, b1, b2, b3] := by
  have e0 : b64Value (b64Char (b0 / 4)) = some (b0 / 4) :=
    b64Value_b64Char _ (by omega)
  have e1 : b64Value (b64Char (b0 % 4 * 16 + b1 / 16)) =
      some (b0 % 4 * 16 + b1 / 16) := b64Value_b64Char _ (by omega)
  have e2 : b64Value (b64Char (b1 % 16 * 4 + b2 / 64)) =
      some (b1 % 16 * 4 + b2 / 64) := b64Value_b64Char _ (by omega)
  have e3 : b64Value (b64Char (b2 % 64)) = some (b2 % 64) :=
    b64Value_b64Char _ (by omega)
  have e4 : b64Value (b64Char (b3 / 4)) = some (b3 / 4) :=
    b64Value_b64Char _ (by omega)
  have e5 : b64Value (b64Char (b3 % 4 * 16)) = some (b3 % 4 * 16) :=
    b64Value_b64Char _ (by omega)
  simp only [base64urlEncode, base64urlDecode, e0, e1, e2, e3, e4, e5,
    Option.bind_eq_bind, Option.some_bind]
  refine congrArg some ?_
  simp only [List.cons.injEq, and_true]
  refine ⟨by omega, by omega, by omega, by omega⟩

lemma getKeyId_kidFromKeyId (key_id : Nat) (h : key_id < 4294967296) :
    getKeyId (kidFromKeyId key_id) = some key_id := by
  rw [kidFromKeyId, getKeyId]
  have hts : (String.mk (base64urlEncode (bigEndian4 key_id))).toList =
      base64urlEncode (bigEndian4 key_id) := rfl
  rw [hts, bigEndian4]
  rw [base64url_decode_encode_4 _ _ _ _ (by omega) (by omega) (by omega) (by omega)]
  refine congrArg some ?_
  omega

lemma kidFromKeyId_length (key_id : Nat) : (kidFromKeyId key_id).length = 6 := by
  rw [kidFromKeyId, bigEndian4]
  simp [base64urlEncode, String.length]

/-- C4: the wrapper's `ComputeMacAndEncode` delegates to the primary entry's
per-key sign, passing for a TINK primary the kid derived from the 32-bit key
id by big-endian 4-byte encoding then unpadded base64url — 6 ASCII characters,
decoding back to the key id; `0x01020304` yields `"AQIDBA"` — and for a RAW
primary no kid, so the emitted token carries the derived kid or none. -/
theorem c4_compute_delegates_primary_kid :
    (∀ (mac : MacFn) (alg : Algorithm) (wallNow : Int) (e : KeysetEntry)
       (s : PrimitiveSet Token VerifiedJwt) (raw : RawJwt),
       s.getPrimary = some (e.toEntry mac alg wallNow) →
       (e.output_prefix_type = .TINK →
         JwtMacSetWrapper.ComputeMacAndEncode s raw =
           signAndEncodeWithKid mac alg e.key none raw
             (some (kidFromKeyId e.key_id)) ∧
         ∃ tok, JwtMacSetWrapper.ComputeMacAndEncode s raw = .ok tok ∧
           tok.header.kid = some (kidFromKeyId e.key_id)) ∧
       (e.output_prefix_type = .RAW →
         JwtMacSetWrapper.ComputeMacAndEncode s raw =
           signAndEncodeWithKid mac alg e.key none raw none ∧
         ∃ tok, JwtMacSetWrapper.ComputeMacAndEncode s raw = .ok tok ∧
           tok.header.kid = none)) ∧
    (∀ key_id : Nat, key_id < 4294967296 →
      (kidFromKeyId key_id).length = 6 ∧
      (∀ ch ∈ (kidFromKeyId key_id).toList, ch.toNat < 128) ∧
      getKeyId (kidFromKeyId key_id) = some key_id) ∧
    kidFromKeyId 0x01020304 = "AQIDBA" := by
  refine ⟨?_, ?_, by decide⟩
  · intro mac alg wallNow e s raw hp
    constructor
    · intro htink
      have hdeleg : JwtMacSetWrapper.ComputeMacAndEncode s raw =
          signAndEncodeWithKid mac alg e.key none raw
            (some (kidFromKeyId e.key_id)) := by
        simp [JwtMacSetWrapper.ComputeMacAndEncode, hp, KeysetEntry.toEntry,
          KeysetEntry.primitive, GetKid, htink]
      refine ⟨hdeleg, ?_⟩
      rw [hdeleg, signAndEncodeWithKid]
      simp only [Option.isSome_none, Bool.false_and, Bool.and_false, if_neg,
        Bool.false_eq_true, not_false_eq_true]
      exact ⟨_, rfl, rfl⟩
    · intro hraw
      have hdeleg : JwtMacSetWrapper.ComputeMacAndEncode s raw =
          signAndEncodeWithKid mac alg e.key none raw none := by
        simp [JwtMacSetWrapper.ComputeMacAndEncode, hp, KeysetEntry.toEntry,
          KeysetEntry.primitive, GetKid, hraw]
      refine ⟨hdeleg, ?_⟩
      rw [hdeleg, signAndEncodeWithKid]
      simp only [Option.isSome_none, Bool.false_and, Bool.and_false, if_neg,
        Bool.false_eq_true, not_false_eq_true]
      exact ⟨_, rfl, rfl⟩
  · intro key_id h
    refine ⟨kidFromKeyId_length key_id, ?_, getKeyId_kidFromKeyId key_id h⟩
    intro ch hch
    rw [kidFromKeyId, bigEndian4] at hch
    simp only [base64urlEncode] at hch
    have hts : (String.mk (b64Char (key_id / 2 ^ 24 % 256 / 4) ::
        b64Char (key_id / 2 ^ 24 % 256 % 4 * 16 + key_id / 2 ^ 16 % 256 / 16) ::
        b64Char (key_id / 2 ^ 16 % 256 % 16 * 4 + key_id / 2 ^ 8 % 256 / 64) ::
        b64Char (key_id / 2 ^ 8 % 256 % 64) ::
        [b64Char (key_id % 256 / 4), b64Char (key_id % 256 % 4 * 16)])).toList =
        _ := rfl
    rw [hts] at hch
    rcases List.mem_cons.mp hch with rfl | hch; · exact b64Char_ascii _
    rcases List.mem_cons.mp hch with rfl | hch; · exact b64Char_ascii _
    rcases List.mem_cons.mp hch with rfl | hch; · exact b64Char_ascii _
    rcases List.mem_cons.mp hch with rfl | hch; · exact b64Char_ascii _
    rcases List.mem_cons.mp hch with rfl | hch; · exact b64Char_ascii _
    rcases List.mem_cons.mp hch with rfl | hch; · exact b64Char_ascii _
    cases hch

/-- Witness for C4 at a concrete TINK primary with key id `0x01020304`. -/
theorem c4_witness :
    JwtMacSetWrapper.ComputeMacAndEncode
      (⟨[KeysetEntry.toEntry macKeyTag .HS256 0
          ⟨0x01020304, rotKey1, .ENABLED, .TINK⟩], some 0⟩ :
        PrimitiveSet Token VerifiedJwt) rotRawJwt =
      signAndEncodeWithKid macKeyTag .HS256 rotKey1 none rotRawJwt
        (some (kidFromKeyId 0x01020304)) ∧
    getKeyId (kidFromKeyId 0x01020304) = some 0x01020304 := by
  have happ := c4_compute_delegates_primary_kid
  refine ⟨((happ.1 macKeyTag .HS256 0 ⟨0x01020304, rotKey1, .ENABLED, .TINK⟩
    ⟨[KeysetEntry.toEntry macKeyTag .HS256 0
        ⟨0x01020304, rotKey1, .ENABLED, .TINK⟩], some 0⟩
    rotRawJwt rfl).1 rfl).1, (happ.2.1 0x01020304 (by norm_num)).2.2⟩

/-! ## C5: custom_kid exclusivity -/

/-- C5: for a key with `custom_kid` set, signing with an explicit kid argument
fails with INVALID_ARGUMENT "custom_kid and kid set"; signing with no kid
succeeds, the emitted header's kid equals `custom_kid`, and — whenever the
validator accepts the claims — the token verifies under the corresponding
verify primitive. -/
theorem c5_custom_kid_exclusivity
    (mac : MacFn) (alg : Algorithm) (key : KeyBytes) (ck : String)
    (raw : RawJwt) (k : String) (v : JwtValidator) (wallNow : Int)
    (hval : v.validate wallNow raw.type_header (encodePayload raw) = .ok ()) :
    signAndEncodeWithKid mac alg key (some ck) raw (some k) =
      .error ⟨.invalidArgument, "custom_kid and kid set"⟩ ∧
    ∃ tok, signAndEncodeWithKid mac alg key (some ck) raw none = .ok tok ∧
      tok.header.kid = some ck ∧
      verifyAndDecodeToken mac alg key (some ck) none wallNow tok v =
        .ok (decodeToken tok.header tok.payload) := by
  constructor
  · simp [signAndEncodeWithKid]
  · have htyp : v.typOk raw.type_header = true :=
      validate_ok_typOk v wallNow raw.type_header (encodePayload raw) hval
    refine ⟨⟨⟨raw.type_header, alg.name, some ck⟩, encodePayload raw,
      mac key ⟨raw.type_header, alg.name, some ck⟩ (encodePayload raw)⟩,
      by simp [signAndEncodeWithKid], rfl, ?_⟩
    simp [verifyAndDecodeToken, htyp, hval, kidPolicyOk]

/-- Witness for C5 at a concrete HS256 key and claim set. -/
theorem c5_witness :
    signAndEncodeWithKid macKeyTag .HS256 rotKey1 (some "Lorem ipsum") rotRawJwt
      (some "kid123") = .error ⟨.invalidArgument, "custom_kid and kid set"⟩ ∧
    ∃ tok, signAndEncodeWithKid macKeyTag .HS256 rotKey1 (some "Lorem ipsum")
        rotRawJwt none = .ok tok ∧
      tok.header.kid = some "Lorem ipsum" ∧
      verifyAndDecodeToken macKeyTag .HS256 rotKey1 (some "Lorem ipsum") none 0
        tok rotValidator = .ok (decodeToken tok.header tok.payload) :=
  c5_custom_kid_exclusivity macKeyTag .HS256 rotKey1 "Lorem ipsum" rotRawJwt
    "kid123" rotValidator 0 rfl

/-! ## C7: validator temporal semantics -/

/-- C7: with the non-temporal checks passing, `now` is `fixed_now` when set
and the wall clock otherwise; a present `exp` succeeds temporally only when
`now < exp + k` and fails "expired" otherwise; a missing `exp` without
`allow_missing_expiration` fails "no expiration"; a present `nbf` requires
`now + k ≥ nbf`. -/
theorem c7_validator_temporal (v : JwtValidator) (wallNow : Int)
    (typ : Option String) (p : Payload) (hpre : preChecksOk v typ p = true) :
    ((∀ t : Int, v.fixed_now = some t → v.effectiveNow wallNow = t) ∧
     (v.fixed_now = none → v.effectiveNow wallNow = wallNow)) ∧
    (∀ e : Int, p.exp = some e →
      (v.validate wallNow typ p = .ok () →
        v.effectiveNow wallNow < e + v.clock_skew) ∧
      (e + v.clock_skew ≤ v.effectiveNow wallNow →
        v.validate wallNow typ p = .error ⟨.invalidArgument, "expired"⟩)) ∧
    (p.exp = none → v.allow_missing_expiration = false →
      v.validate wallNow typ p = .error ⟨.invalidArgument, "no expiration"⟩) ∧
    (∀ n : Int, p.nbf = some n →
      (v.validate wallNow typ p = .ok () →
        v.effectiveNow wallNow + v.clock_skew ≥ n) ∧
      (v.effectiveNow wallNow + v.clock_skew < n →
        v.validate wallNow typ p ≠ .ok ())) := by
  rw [preChecksOk, Bool.and_eq_true, Bool.and_eq_true, Bool.and_eq_true] at hpre
  obtain ⟨⟨⟨h1, h2⟩, h3⟩, h4⟩ := hpre
  have hv : v.validate wallNow typ p =
      (let now := v.effectiveNow wallNow
       let k := v.clock_skew
       let expOk : StatusOr Unit :=
         match p.exp with
         | some e =>
           if now < e + k then .ok () else .error ⟨.invalidArgument, "expired"⟩
         | none =>
           if v.allow_missing_expiration then .ok ()
           else .error ⟨.invalidArgument, "no expiration"⟩
       match expOk with
       | .error st => .error st
       | .ok () =>
         match p.nbf with
         | some n =>
           if now + k ≥ n then .ok ()
           else .error ⟨.invalidArgument, "token cannot yet be used"⟩
         | none => .ok ()) := by
    rw [JwtValidator.validate]
    rw [h1, h2, h3, h4]
    rfl
  refine ⟨⟨fun t ht => by simp [JwtValidator.effectiveNow, ht],
    fun ht => by simp [JwtValidator.effectiveNow, ht]⟩, ?_, ?_, ?_⟩
  · intro e he
    rw [hv]
    simp only [he]
    by_cases hlt : v.effectiveNow wallNow < e + v.clock_skew
    · rw [if_pos hlt]
      exact ⟨fun _ => hlt, fun hle => absurd hlt (by omega)⟩
    · rw [if_neg hlt]
      refine ⟨fun hok => ?_, fun _ => rfl⟩
      simp at hok
  · intro he hmiss
    rw [hv]
    simp only [he, hmiss]
    rfl
  · intro n hn
    rw [hv]
    simp only [hn]
    cases hexp : p.exp with
    | some e =>
      simp only []
      by_cases hlt : v.effectiveNow wallNow < e + v.clock_skew
      · rw [if_pos hlt]
        simp only []
        by_cases hge : v.effectiveNow wallNow + v.clock_skew ≥ n
        · rw [if_pos hge]
          exact ⟨fun _ => hge, fun hlt2 => absurd hge (by omega)⟩
        · rw [if_neg hge]
          refine ⟨fun hok => ?_, fun _ hok => ?_⟩ <;> simp at hok
      · rw [if_neg hlt]
        refine ⟨fun hok => ?_, fun _ hok => ?_⟩ <;> simp at hok
    | none =>
      simp only []
      by_cases hmiss : v.allow_missing_expiration
      · rw [if_pos hmiss]
        simp only []
        by_cases hge : v.effectiveNow wallNow + v.clock_skew ≥ n
        · rw [if_pos hge]
          exact ⟨fun _ => hge, fun hlt2 => absurd hge (by omega)⟩
        · rw [if_neg hge]
          refine ⟨fun hok => ?_, fun _ hok => ?_⟩ <;> simp at hok
      · rw [if_neg hmiss]
        refine ⟨fun hok => ?_, fun _ hok => ?_⟩ <;> simp at hok

/-- Witness for C7: a fixed clock at 100 with `exp = 50` is "expired", and a
fixed clock at 100 with `nbf = 200` (skew 0) is rejected. -/
theorem c7_witness :
    JwtValidator.validate ⟨none, none, none, none, false, some 100, 0⟩ 0 none
      ⟨none, none, [], none, none, none, some 50, []⟩ =
      .error ⟨.invalidArgument, "expired"⟩ ∧
    JwtValidator.validate ⟨none, none, none, none, true, some 100, 0⟩ 0 none
      ⟨none, none, [], none, some 200, none, none, []⟩ ≠ .ok () := by
  constructor
  · exact ((c7_validator_temporal ⟨none, none, none, none, false, some 100, 0⟩ 0
      none ⟨none, none, [], none, none, none, some 50, []⟩ rfl).2.1 50
      rfl).2 (by norm_num [JwtValidator.effectiveNow])
  · exact ((c7_validator_temporal ⟨none, none, none, none, true, some 100, 0⟩ 0
      none ⟨none, none, [], none, some 200, none, none, []⟩ rfl).2.2.2 200
      rfl).2 (by norm_num [JwtValidator.effectiveNow])

/-! ## C8: the HMAC key-size floor -/

/-- Counterexample to C8 as stated: `ValidateKeyFormat` accepts an HS384
format of 32 bytes although 32 is below the HS384 digest size (48), so the
floor is not "the digest size in bytes" for every algorithm. -/
theorem c8_counterexample_digest_floor :
    JwtHmacKeyManager.ValidateKeyFormat ⟨.HS384, 32⟩ = .ok () ∧
    32 < JwtHmacAlgorithm.digestSize .HS384 ∧
    JwtHmacKeyManager.ValidateKey ⟨0, .HS384, List.replicate 32 0⟩ = .ok () := by
  refine ⟨rfl, by norm_num [JwtHmacAlgorithm.digestSize], rfl⟩

/-- C8 (amended): `validate_key_format` and `validate_key` enforce a floor of
32 bytes for every HS* algorithm — the HS256 digest size; for HS384/HS512 the
floor stays at 32, below their digest sizes — rejecting every key or key_size
shorter than 32 bytes and accepting exactly 32 bytes. -/
theorem c8_amended_key_floor :
    (∀ f : JwtHmacKeyFormat, JwtHmacKeyManager.ValidateKeyFormat f = .ok () ↔
      f.algorithm ≠ .HS_UNKNOWN ∧ 32 ≤ f.key_size) ∧
    (∀ k : JwtHmacKey, JwtHmacKeyManager.ValidateKey k = .ok () ↔
      k.version = 0 ∧ k.algorithm ≠ .HS_UNKNOWN ∧ 32 ≤ k.key_value.length) ∧
    (∀ a : JwtHmacAlgorithm, a ≠ .HS_UNKNOWN →
      JwtHmacKeyManager.ValidateKeyFormat ⟨a, 32⟩ = .ok () ∧
      ∀ sz : Nat, sz < 32 →
        JwtHmacKeyManager.ValidateKeyFormat ⟨a, sz⟩ ≠ .ok ()) := by
  have hfmt : ∀ f : JwtHmacKeyFormat,
      JwtHmacKeyManager.ValidateKeyFormat f = .ok () ↔
        f.algorithm ≠ .HS_UNKNOWN ∧ 32 ≤ f.key_size := by
    intro f
    rw [JwtHmacKeyManager.ValidateKeyFormat, JwtHmacKeyManager.minKeySize]
    split_ifs with h1 h2
    · simp_all
    · constructor
      · intro h
        simp at h
      · intro ⟨_, hge⟩
        omega
    · simp_all
  refine ⟨hfmt, ?_, ?_⟩
  · intro k
    rw [JwtHmacKeyManager.ValidateKey, JwtHmacKeyManager.minKeySize]
    split_ifs with h1 h2 h3
    · constructor
      · intro h
        simp at h
      · intro ⟨hv, _⟩
        exact absurd hv h1
    · simp_all
    · constructor
      · intro h
        simp at h
      · intro ⟨_, _, hge⟩
        omega
    · simp_all
  · intro a ha
    refine ⟨(hfmt ⟨a, 32⟩).mpr ⟨ha, le_refl 32⟩, ?_⟩
    intro sz hsz h
    have hge : 32 ≤ sz := ((hfmt ⟨a, sz⟩).mp h).2
    omega

/-- Witness for C8 (amended) at HS256 and HS512: 32 bytes accepted, 31
rejected. -/
theorem c8_witness :
    JwtHmacKeyManager.ValidateKeyFormat ⟨.HS256, 32⟩ = .ok () ∧
    JwtHmacKeyManager.ValidateKeyFormat ⟨.HS256, 31⟩ ≠ .ok () ∧
    JwtHmacKeyManager.ValidateKeyFormat ⟨.HS512, 32⟩ = .ok () := by
  refine ⟨(c8_amended_key_floor.2.2 .HS256 (by decide)).1,
    (c8_amended_key_floor.2.2 .HS256 (by decide)).2 31 (by norm_num),
    (c8_amended_key_floor.2.2 .HS512 (by decide)).1⟩

/-! ## C9: malformed framing -/

/-- C9: any compact input that is not exactly three non-empty dot-separated
segments of base64url-alphabet characters is rejected by the per-key verify
with INVALID_ARGUMENT, before any decoding or cryptography; in particular the
empty string, "..", a two-segment string, an extra trailing dot, a leading or
trailing space, and a `?` inside any segment. -/
theorem c9_malformed_framing_rejected :
    (∀ (V : Type) (decodeSegments : List Char × List Char × List Char →
        StatusOr Token) (verifyTok : Token → StatusOr V) (s : String),
       splitCompact s = none →
       verifyCompact decodeSegments verifyTok s =
         .error ⟨.invalidArgument, "invalid token"⟩) ∧
    splitCompact "" = none ∧
    splitCompact ".." = none ∧
    splitCompact "eyJhbGciOiJIUzI1NiJ9.YWJj" = none ∧
    splitCompact "eyJhbGciOiJIUzI1NiJ9.e30.YWJj." = none ∧
    splitCompact "eyJhbGciOiJIUzI1NiJ9.e30.YWJj " = none ∧
    splitCompact " eyJhbGciOiJIUzI1NiJ9.e30.YWJj" = none ∧
    splitCompact "eyJhbGciOiJIUzI1NiJ9?.e30.YWJj" = none ∧
    splitCompact "eyJhbGciOiJIUzI1NiJ9.e30?.YWJj" = none ∧
    splitCompact "eyJhbGciOiJIUzI1NiJ9.e30.YWJj?" = none ∧
    splitCompact "eyJhbGciOiJIUzI1NiJ9.e30.YWJj" ≠ none := by
  refine ⟨?_, rfl, rfl, rfl, rfl, rfl, rfl, rfl, rfl, rfl, by decide⟩
  intro V decodeSegments verifyTok s h
  rw [verifyCompact, h]

/-- Witness for C9 at the two-dot input. -/
theorem c9_witness :
    verifyCompact (fun _ => (.error ⟨.internalError, "unused"⟩ : StatusOr Token))
      (fun _ => (.error ⟨.internalError, "unused"⟩ : StatusOr Nat)) ".." =
      .error ⟨.invalidArgument, "invalid token"⟩ :=
  c9_malformed_framing_rejected.1 Nat _ _ ".." rfl

/-! ## C2: sign/verify round-trip -/

lemma decodeToken_encodePayload (r : RawJwt) (a : String) (kid : Option String) :
    decodeToken ⟨r.type_header, a, kid⟩ (encodePayload r) = truncateRaw r := by
  cases r with
  | mk th iss sub aud jid nbf iat exp cc =>
    simp only [decodeToken, encodePayload, truncateRaw, Option.map_map]
    rfl

/-- C2: for every algorithm and MAC engine, and every claim set the builder
accepts, verifying a signed token under a validator that accepts the claims
succeeds and yields exactly the input claim set with timestamps truncated to
whole seconds (nanos 0) — type header, issuer, subject, audiences in order,
jwt id and custom claims unchanged. -/
theorem c2_round_trip (mac : MacFn) (alg : Algorithm) (key : KeyBytes)
    (b : RawJwtBuilder) (r : RawJwt) (v : JwtValidator) (wallNow : Int)
    (tok : Token)
    (hbuild : b.build = .ok r)
    (hval : v.validate wallNow r.type_header (encodePayload r) = .ok ())
    (hsign : signAndEncodeWithKid mac alg key none r none = .ok tok) :
    verifyAndDecodeToken mac alg key none none wallNow tok v =
      .ok (truncateRaw r) ∧
    (truncateRaw r).type_header = r.type_header ∧
    (truncateRaw r).issuer = r.issuer ∧
    (truncateRaw r).subject = r.subject ∧
    (truncateRaw r).audiences = r.audiences ∧
    (truncateRaw r).jwt_id = r.jwt_id ∧
    (truncateRaw r).custom_claims = r.custom_claims ∧
    (truncateRaw r).not_before = r.not_before.map (fun t => ⟨t.seconds, 0⟩) ∧
    (truncateRaw r).issued_at = r.issued_at.map (fun t => ⟨t.seconds, 0⟩) ∧
    (truncateRaw r).expiration = r.expiration.map (fun t => ⟨t.seconds, 0⟩) := by
  have htok : tok = ⟨⟨r.type_header, alg.name, none⟩, encodePayload r,
      mac key ⟨r.type_header, alg.name, none⟩ (encodePayload r)⟩ := by
    rw [signAndEncodeWithKid] at hsign
    simp only [Option.isSome_none, Bool.false_and] at hsign
    rw [if_neg (by simp)] at hsign
    exact (Except.ok.injEq _ _).mp hsign.symm ▸ rfl
  subst htok
  have htyp : v.typOk r.type_header = true :=
    validate_ok_typOk v wallNow r.type_header (encodePayload r) hval
  refine ⟨?_, rfl, rfl, rfl, rfl, rfl, rfl, rfl, rfl, rfl⟩
  rw [verifyAndDecodeToken]
  rw [if_neg (by simp)]
  rw [if_neg (by simp [htyp])]
  rw [if_neg (by simp)]
  rw [hval]
  simp only []
  rw [if_pos (show kidPolicyOk none none
    (⟨r.type_header, alg.name, none⟩ : Header).kid = true from rfl)]
  exact congrArg Except.ok (decodeToken_encodePayload r alg.name none)

/-- Witness for C2 at a concrete claim set with sub-second `not_before`. -/
theorem c2_witness :
    verifyAndDecodeToken macKeyTag .HS256 rotKey1 none none 0
      ⟨⟨some "JWT", "HS256", none⟩,
       encodePayload ⟨some "JWT", some "issuer", some "subject",
         ["aud1", "aud2"], some "id", some ⟨12345, 123000000⟩,
         some ⟨23456, 0⟩, some ⟨34567, 0⟩, [("bool_claim", JsonValue.bool true)]⟩,
       rotKey1⟩
      ⟨some "JWT", some "issuer", some "subject", some "aud2", false,
        some 23456, 0⟩ =
      .ok (truncateRaw ⟨some "JWT", some "issuer", some "subject",
        ["aud1", "aud2"], some "id", some ⟨12345, 123000000⟩,
        some ⟨23456, 0⟩, some ⟨34567, 0⟩,
        [("bool_claim", JsonValue.bool true)]⟩) :=
  (c2_round_trip macKeyTag .HS256 rotKey1
    ⟨⟨some "JWT", some "issuer", some "subject", ["aud1", "aud2"], some "id",
      some ⟨12345, 123000000⟩, some ⟨23456, 0⟩, some ⟨34567, 0⟩,
      [("bool_claim", JsonValue.bool true)]⟩, false⟩
    ⟨some "JWT", some "issuer", some "subject", ["aud1", "aud2"], some "id",
      some ⟨12345, 123000000⟩, some ⟨23456, 0⟩, some ⟨34567, 0⟩,
      [("bool_claim", JsonValue.bool true)]⟩
    ⟨some "JWT", some "issuer", some "subject", some "aud2", false,
      some 23456, 0⟩ 0
    ⟨⟨some "JWT", "HS256", none⟩,
     encodePayload ⟨some "JWT", some "issuer", some "subject",
       ["aud1", "aud2"], some "id", some ⟨12345, 123000000⟩,
       some ⟨23456, 0⟩, some ⟨34567, 0⟩, [("bool_claim", JsonValue.bool true)]⟩,
     rotKey1⟩
    rfl rfl rfl).1

/-! ## C3: keyset trial verification across rotation -/

lemma kidPolicyOk_self (tk : Option String) : kidPolicyOk none tk tk = true := by
  cases tk with
  | none => rfl
  | some t => simp [kidPolicyOk]

lemma verify_ok_sig_eq (mac : MacFn) (alg : Algorithm) (key : KeyBytes)
    (ck tk : Option String) (wallNow : Int) (tok : Token) (v : JwtValidator)
    (val : VerifiedJwt)
    (h : verifyAndDecodeToken mac alg key ck tk wallNow tok v = .ok val) :
    tok.sig = mac key tok.header tok.payload := by
  rw [verifyAndDecodeToken] at h
  by_cases h1 : tok.header.alg ≠ alg.name
  · rw [if_pos h1] at h
    cases h
  · rw [if_neg h1] at h
    by_cases h2 : (!(v.typOk tok.header.typ)) = true
    · rw [if_pos h2] at h
      cases h
    · rw [if_neg h2] at h
      by_cases h3 : tok.sig ≠ mac key tok.header tok.payload
      · rw [if_pos h3] at h
        cases h
      · exact not_not.mp h3

lemma mem_toPrimitiveSet_entries (ks : Keyset) (mac : MacFn) (alg : Algorithm)
    (wallNow : Int) (ke : KeysetEntry) (hke : ke ∈ ks.entries)
    (hen : ke.status = .ENABLED) :
    ke.toEntry mac alg wallNow ∈ (ks.toPrimitiveSet mac alg wallNow).entries := by
  rw [Keyset.toPrimitiveSet]
  exact List.mem_map.mpr ⟨ke, List.mem_filter.mpr ⟨hke, by simp [hen]⟩, rfl⟩

lemma mem_toPrimitiveSet_entries_inv (ks : Keyset) (mac : MacFn)
    (alg : Algorithm) (wallNow : Int) (e : Entry Token VerifiedJwt)
    (he : e ∈ (ks.toPrimitiveSet mac alg wallNow).entries) :
    ∃ ke ∈ ks.entries, ke.status = .ENABLED ∧ e = ke.toEntry mac alg wallNow := by
  rw [Keyset.toPrimitiveSet] at he
  rcases List.mem_map.mp he with ⟨ke, hkef, hmap⟩
  rcases List.mem_filter.mp hkef with ⟨hmem, hstat⟩
  refine ⟨ke, hmem, ?_, hmap.symm⟩
  cases h : ke.status
  · rfl
  · rw [h] at hstat
    cases hstat

lemma compute_toPrimitiveSet_eq (ks : Keyset) (mac : MacFn) (alg : Algorithm)
    (wallNow : Int) (raw : RawJwt) (ep : KeysetEntry)
    (hp : ks.primaryEntry = some ep) :
    JwtMacSetWrapper.ComputeMacAndEncode (ks.toPrimitiveSet mac alg wallNow)
        raw =
      .ok ⟨⟨raw.type_header, alg.name, GetKid ep.key_id ep.output_prefix_type⟩,
        encodePayload raw,
        mac ep.key
          ⟨raw.type_header, alg.name, GetKid ep.key_id ep.output_prefix_type⟩
          (encodePayload raw)⟩ := by
  rw [JwtMacSetWrapper.ComputeMacAndEncode, toPrimitiveSet_getPrimary, hp]
  simp only [Option.map_some']
  rw [show (KeysetEntry.toEntry mac alg wallNow ep).primitive =
    ep.primitive mac alg wallNow from rfl]
  rw [show (KeysetEntry.toEntry mac alg wallNow ep).key_id = ep.key_id from rfl,
    show (KeysetEntry.toEntry mac alg wallNow ep).output_prefix_type =
      ep.output_prefix_type from rfl]
  rw [KeysetEntry.primitive]
  simp only [signAndEncodeWithKid, Option.isSome_none, Bool.false_and]
  rw [if_neg (by simp)]
  rfl

/-- C3: a token produced by an enabled entry of a keyset verifies under any
wrapper whose set holds that key enabled (same key id and prefix); a token
whose MAC matches no enabled entry of a wrapper's set — the key absent or
disabled — does not verify; and in the concrete rotation scenario (K1 then K2,
RAW or TINK), c1 of K1 verifies under handles 1/2/3 and not 4, while c3 of K2
verifies under handles 2/3/4 and not 1. -/
theorem c3_keyset_rotation_trial :
    (∀ (mac : MacFn) (alg : Algorithm) (wallNowS wallNowV : Int)
       (ksS ksV : Keyset) (raw : RawJwt) (v : JwtValidator) (tok : Token)
       (ep e : KeysetEntry),
       ksS.primaryEntry = some ep →
       JwtMacSetWrapper.ComputeMacAndEncode
         (ksS.toPrimitiveSet mac alg wallNowS) raw = .ok tok →
       e ∈ ksV.entries → e.status = .ENABLED →
       e.key = ep.key → e.key_id = ep.key_id →
       e.output_prefix_type = ep.output_prefix_type →
       v.validate wallNowV raw.type_header (encodePayload raw) = .ok () →
       (JwtMacSetWrapper.VerifyMacAndDecode
         (ksV.toPrimitiveSet mac alg wallNowV) tok v).isOk = true) ∧
    (∀ (mac : MacFn) (alg : Algorithm) (wallNowV : Int) (ksV : Keyset)
       (v : JwtValidator) (tok : Token),
       (∀ e ∈ ksV.entries, e.status = .ENABLED →
         mac e.key tok.header tok.payload ≠ tok.sig) →
       (JwtMacSetWrapper.VerifyMacAndDecode
         (ksV.toPrimitiveSet mac alg wallNowV) tok v).isOk = false) ∧
    (∀ p : OutputPrefixType, p = .RAW ∨ p = .TINK →
      ∃ t1 t3 : Token,
        JwtMacSetWrapper.ComputeMacAndEncode
          ((rotKeyset1 p).toPrimitiveSet macKeyTag .HS256 0) rotRawJwt =
          .ok t1 ∧
        JwtMacSetWrapper.ComputeMacAndEncode
          ((rotKeyset3 p).toPrimitiveSet macKeyTag .HS256 0) rotRawJwt =
          .ok t3 ∧
        (JwtMacSetWrapper.VerifyMacAndDecode
          ((rotKeyset1 p).toPrimitiveSet macKeyTag .HS256 0) t1
          rotValidator).isOk = true ∧
        (JwtMacSetWrapper.VerifyMacAndDecode
          ((rotKeyset2 p).toPrimitiveSet macKeyTag .HS256 0) t1
          rotValidator).isOk = true ∧
        (JwtMacSetWrapper.VerifyMacAndDecode
          ((rotKeyset3 p).toPrimitiveSet macKeyTag .HS256 0) t1
          rotValidator).isOk = true ∧
        (JwtMacSetWrapper.VerifyMacAndDecode
          ((rotKeyset4 p).toPrimitiveSet macKeyTag .HS256 0) t1
          rotValidator).isOk = false ∧
        (JwtMacSetWrapper.VerifyMacAndDecode
          ((rotKeyset1 p).toPrimitiveSet macKeyTag .HS256 0) t3
          rotValidator).isOk = false ∧
        (JwtMacSetWrapper.VerifyMacAndDecode
          ((rotKeyset2 p).toPrimitiveSet macKeyTag .HS256 0) t3
          rotValidator).isOk = true ∧
        (JwtMacSetWrapper.VerifyMacAndDecode
          ((rotKeyset3 p).toPrimitiveSet macKeyTag .HS256 0) t3
          rotValidator).isOk = true ∧
        (JwtMacSetWrapper.VerifyMacAndDecode
          ((rotKeyset4 p).toPrimitiveSet macKeyTag .HS256 0) t3
          rotValidator).isOk = true) := by
  refine ⟨?_, ?_, ?_⟩
  · intro mac alg wallNowS wallNowV ksS ksV raw v tok ep e hp hsign hmem hen
      hkey hid hpfx hval
    rw [compute_toPrimitiveSet_eq ksS mac alg wallNowS raw ep hp] at hsign
    have htok := (Except.ok.injEq _ _).mp hsign
    subst htok
    rw [VerifyMacAndDecode_isOk_iff]
    refine ⟨e.toEntry mac alg wallNowV,
      mem_toPrimitiveSet_entries ksV mac alg wallNowV e hmem hen, ?_⟩
    rw [show (KeysetEntry.toEntry mac alg wallNowV e).primitive =
      e.primitive mac alg wallNowV from rfl]
    rw [KeysetEntry.primitive]
    simp only []
    rw [verifyAndDecodeToken]
    have htyp : v.typOk raw.type_header = true :=
      validate_ok_typOk v wallNowV raw.type_header (encodePayload raw) hval
    rw [if_neg (by simp)]
    rw [if_neg (by simp [htyp])]
    rw [if_neg (by simp [hkey])]
    rw [hval]
    simp only []
    rw [if_pos ?kidok]
    · rfl
    case kidok =>
      rw [hid, hpfx]
      exact kidPolicyOk_self (GetKid ep.key_id ep.output_prefix_type)
  · intro mac alg wallNowV ksV v tok hno
    cases hok : (JwtMacSetWrapper.VerifyMacAndDecode
        (ksV.toPrimitiveSet mac alg wallNowV) tok v).isOk with
    | false => rfl
    | true =>
      exfalso
      rcases (VerifyMacAndDecode_isOk_iff _ _ _).mp hok with ⟨e, he, heok⟩
      rcases mem_toPrimitiveSet_entries_inv ksV mac alg wallNowV e he with
        ⟨ke, hkem, hken, rfl⟩
      cases hres : (KeysetEntry.toEntry mac alg wallNowV
          ke).primitive.verifyMacAndDecode tok v with
      | error st =>
        rw [hres, isOk_error] at heok
        exact Bool.noConfusion heok
      | ok val =>
        rw [show (KeysetEntry.toEntry mac alg wallNowV ke).primitive =
          ke.primitive mac alg wallNowV from rfl, KeysetEntry.primitive] at hres
        have hsig := verify_ok_sig_eq mac alg ke.key none
          (GetKid ke.key_id ke.output_prefix_type) wallNowV tok v val hres
        exact hno ke hkem hken hsig.symm
  · intro p hp
    rcases hp with rfl | rfl
    · exact ⟨_, _, rfl, rfl, rfl, rfl, rfl, rfl, rfl, rfl, rfl, rfl⟩
    · exact ⟨_, _, rfl, rfl, rfl, rfl, rfl, rfl, rfl, rfl, rfl, rfl⟩

/-- Witness for C3: the RAW rotation scenario. -/
theorem c3_witness :
    ∃ t1 t3 : Token,
      JwtMacSetWrapper.ComputeMacAndEncode
        ((rotKeyset1 .RAW).toPrimitiveSet macKeyTag .HS256 0) rotRawJwt =
        .ok t1 ∧
      JwtMacSetWrapper.ComputeMacAndEncode
        ((rotKeyset3 .RAW).toPrimitiveSet macKeyTag .HS256 0) rotRawJwt =
        .ok t3 ∧
      (JwtMacSetWrapper.VerifyMacAndDecode
        ((rotKeyset1 .RAW).toPrimitiveSet macKeyTag .HS256 0) t1
        rotValidator).isOk = true ∧
      (JwtMacSetWrapper.VerifyMacAndDecode
        ((rotKeyset2 .RAW).toPrimitiveSet macKeyTag .HS256 0) t1
        rotValidator).isOk = true ∧
      (JwtMacSetWrapper.VerifyMacAndDecode
        ((rotKeyset3 .RAW).toPrimitiveSet macKeyTag .HS256 0) t1
        rotValidator).isOk = true ∧
      (JwtMacSetWrapper.VerifyMacAndDecode
        ((rotKeyset4 .RAW).toPrimitiveSet macKeyTag .HS256 0) t1
        rotValidator).isOk = false ∧
      (JwtMacSetWrapper.VerifyMacAndDecode
        ((rotKeyset1 .RAW).toPrimitiveSet macKeyTag .HS256 0) t3
        rotValidator).isOk = false ∧
      (JwtMacSetWrapper.VerifyMacAndDecode
        ((rotKeyset2 .RAW).toPrimitiveSet macKeyTag .HS256 0) t3
        rotValidator).isOk = true ∧
      (JwtMacSetWrapper.VerifyMacAndDecode
        ((rotKeyset3 .RAW).toPrimitiveSet macKeyTag .HS256 0) t3
        rotValidator).isOk = true ∧
      (JwtMacSetWrapper.VerifyMacAndDecode
        ((rotKeyset4 .RAW).toPrimitiveSet macKeyTag .HS256 0) t3
        rotValidator).isOk = true :=
  c3_keyset_rotation_trial.2.2 .RAW (Or.inl rfl)

end Tink
